import Mathlib

set_option autoImplicit false
set_option maxHeartbeats 1000000

/-!
Shallow embedding of `SpaceTranslatorRelayPlugin.ts` (the space-translator-relay
plugin): the PCM accumulation buffer, the chunk flush pipeline
(`flushChunkForTranslation` with its `openAiStt`, `libreTranslate`,
`elevenLabsTts` stages and the `syntheticBeepPcm` fallback), the TTS playback
queue (`processTtsQueue` guarded by the `ttsProcessing` flag) and the frame
pacer (`sendTtsPcmToJanus`).

External effects (fetch calls, the two ffmpeg conversions, environment
variables) are modelled as oracles in an `Env` record.  An oracle returning
`Except.error` models a rejected promise, i.e. a thrown exception that
propagates to the enclosing `try`/`catch`; `Except.ok` with the `ok` flag set
to `false` models an HTTP error response that the stage handles itself.
-/

/-- PCM sample sequences (signed 16-bit samples, modelled as integers). -/
abbrev Pcm := List Int

/-- Raw byte sequences (Node `Buffer` contents, modelled as byte lists). -/
abbrev Bytes := List Nat

/-- A completed fetch response: the `resp.ok` status flag plus the payload text
(the transcription text for Whisper, the `translatedText` for LibreTranslate,
or the error text when `ok` is false). -/
structure FetchResp where
  ok : Bool
  text : String

/-- A completed ElevenLabs fetch response: status flag plus the mp3 body. -/
structure TtsResp where
  ok : Bool
  mp3 : Bytes

/-- The JSON body sent to LibreTranslate: `q`, `source`, `target`, `format`,
plus the optional `api_key` entry that is only added when an effective key is
present. -/
structure TranslateBody where
  q : String
  source : String
  target : String
  format : String
  api_key : Option String

/-- The external world: environment-variable credentials and the network /
process oracles.  `beepWave` stands for the floating-point evaluation
`amplitude * Math.sin(2 * Math.PI * freq * (i / sampleRate))` truncated by the
`Int16Array` store in `syntheticBeepPcm`; exact floating point is outside the
embedding, but none of the verified properties depends on the sample values. -/
structure Env where
  openaiKey : Option String
  elevenKey : Option String
  libreKeyEnv : String
  sttFetch : Bytes → String → Except Unit FetchResp
  translateFetch : String → TranslateBody → Except Unit FetchResp
  ttsFetch : String → String → Except Unit TtsResp
  pcmToWav : Bytes → Except Unit Bytes
  mp3ToPcm : Bytes → Nat → Except Unit Pcm
  beepWave : Nat → Int

/-- The plugin configuration after constructor defaulting (sampleRate 48000,
channels 1, languages "en", the default voice id and translate URL). -/
structure PluginConfig where
  sampleRate : Nat
  channels : Nat
  sttLanguage : String
  targetLanguage : String
  ttsVoiceId : String
  translateUrl : String
  translateApiKey : Option String

/-- Prefix test on character lists (helper for the substring test below). -/
def charListHasPrefix : List Char → List Char → Bool
  | _, [] => true
  | [], _ :: _ => false
  | c :: cs, p :: ps => c == p && charListHasPrefix cs ps

/-- Substring containment on character lists. -/
def charListContains : List Char → List Char → Bool
  | [], pat => pat.isEmpty
  | c :: cs, pat => charListHasPrefix (c :: cs) pat || charListContains cs pat

/-- JS `String.prototype.includes`: used by `libreTranslate` for the
`translateUrl.includes("localhost")` trusted-local-instance test. -/
def strContains (s pat : String) : Bool := charListContains s.data pat.data

/-- `translateApiKey || LIBRETRANSLATE_API_KEY_ENV`: JS or-else where the empty
string is falsy, with the environment variable defaulting to `""`. -/
def effectiveTranslateKey (env : Env) (translateApiKey : Option String) : String :=
  match translateApiKey with
  | some k => if k = "" then env.libreKeyEnv else k
  | none => env.libreKeyEnv

/-- `openAiStt` (lines 39-66): missing `OPENAI_API_KEY` or a non-ok response
degrade to the empty transcription; a rejected fetch propagates as an
exception. -/
def openAiStt (env : Env) (wavFile : Bytes) (language : String) : Except Unit String :=
  match env.openaiKey with
  | none => Except.ok ""
  | some _ =>
    match env.sttFetch wavFile language with
    | Except.error e => Except.error e
    | Except.ok resp =>
      if !resp.ok then Except.ok ""
      else Except.ok resp.text.trim

/-- Result of one `libreTranslate` call, instrumented with whether the
non-localhost/no-key warning was logged and how many network calls were made. -/
structure TranslateOut where
  result : Except Unit String
  warned : Bool
  fetchCount : Nat

/-- `libreTranslate` (lines 72-113): empty input returns empty without
fetching; the warning fires when the URL does not contain "localhost" and no
effective key exists; a non-ok response falls back to the original text; a
rejected fetch propagates as an exception. -/
def libreTranslate (env : Env) (text targetLang translateUrl : String)
    (translateApiKey : Option String) : TranslateOut :=
  if text = "" then ⟨Except.ok "", false, 0⟩
  else
    let isLocalhost := strContains translateUrl "localhost"
    let effectiveApiKey := effectiveTranslateKey env translateApiKey
    let warned := !isLocalhost && (effectiveApiKey == "")
    let body : TranslateBody :=
      ⟨text, "auto", targetLang, "text",
        if effectiveApiKey == "" then none else some effectiveApiKey⟩
    match env.translateFetch translateUrl body with
    | Except.error e => ⟨Except.error e, warned, 1⟩
    | Except.ok resp =>
      if !resp.ok then ⟨Except.ok text, warned, 1⟩
      else ⟨Except.ok resp.text, warned, 1⟩

/-- `syntheticBeepPcm` (lines 159-172): the fallback tone.  The local
`sampleRate` constant is hard-coded to 48000 and `durationMs` to 500, so the
tone always has `48000 * 500 / 1000 = 24000` samples; the sample values are
the abstracted sine wave `env.beepWave`. -/
def syntheticBeepPcm (env : Env) : Pcm :=
  let sampleRate := 48000
  let durationMs := 500
  let totalSamples := sampleRate * durationMs / 1000
  (List.range totalSamples).map env.beepWave

/-- `elevenLabsTts` (lines 118-154): missing `ELEVENLABS_API_KEY` or a non-ok
response return the beep fallback; on success the mp3 body is converted by
ffmpeg at the hard-coded output rate 48000; a rejected fetch or a failed
conversion propagates as an exception. -/
def elevenLabsTts (env : Env) (text voiceId : String) : Except Unit Pcm :=
  match env.elevenKey with
  | none => Except.ok (syntheticBeepPcm env)
  | some _ =>
    match env.ttsFetch text voiceId with
    | Except.error e => Except.error e
    | Except.ok resp =>
      if !resp.ok then Except.ok (syntheticBeepPcm env)
      else env.mp3ToPcm resp.mp3 48000

/-- A drained chunk.  `seq` is ghost instrumentation recording the flush
ordinal; the code carries no explicit number and identifies chunks implicitly
by flush order and per-chunk data flow. -/
structure PcmChunk where
  bytes : Bytes
  seq : Nat

/-- A synthesized result together with the (ghost) sequence number of the
chunk it came from. -/
structure SynthesizedAudio where
  pcm : Pcm
  seq : Nat

/-- Outcome of one `flushChunkForTranslation` run past the empty-buffer guard:
either an audio entry pushed onto `ttsQueue`, or the `catch` branch that only
logs the error. -/
structure FlushResult where
  enqueued : Option SynthesizedAudio
  errorLogged : Bool

/-- The `try` body of `flushChunkForTranslation` (lines 388-417) for one
drained chunk: WAV conversion, then the three stages in sequence; any thrown
exception lands in the `catch` branch, which logs and enqueues nothing. -/
def flushChunkForTranslation (env : Env) (cfg : PluginConfig) (c : PcmChunk) :
    FlushResult :=
  match env.pcmToWav c.bytes with
  | Except.error _ => ⟨none, true⟩
  | Except.ok wavPath =>
    match openAiStt env wavPath cfg.sttLanguage with
    | Except.error _ => ⟨none, true⟩
    | Except.ok recognizedText =>
      match (libreTranslate env recognizedText cfg.targetLanguage cfg.translateUrl
          cfg.translateApiKey).result with
      | Except.error _ => ⟨none, true⟩
      | Except.ok translatedText =>
        match elevenLabsTts env translatedText cfg.ttsVoiceId with
        | Except.error _ => ⟨none, true⟩
        | Except.ok ttsPcm => ⟨some ⟨ttsPcm, c.seq⟩, false⟩

/-- Session state visible to the flush scheduler: the accumulation buffer, the
ghost next sequence number, and the playback queue contents in completion
order. -/
structure RunState where
  buffer : Bytes
  nextSeq : Nat
  queue : List SynthesizedAudio

/-- `pcmBuffer = Buffer.concat([pcmBuffer, chunk])` (line 347): the
accumulation buffer appends decoded bytes at the tail. -/
def appendPcm (buf chunk : Bytes) : Bytes := buf ++ chunk

/-- Lines 385-386: `chunkBuf = pcmBuffer; pcmBuffer = Buffer.alloc(0)` — the
atomic drain returns the contents and resets the buffer to empty. -/
def drainPcm (buf : Bytes) : Bytes × Bytes := (buf, [])

/-- One tick of the flush timer (line 310): return early if the buffer is
empty, otherwise drain, number the chunk (ghost), run the pipeline and push
any produced audio onto the queue. -/
def flushTick (env : Env) (cfg : PluginConfig) (s : RunState) : RunState :=
  if s.buffer = [] then s
  else
    let drained := drainPcm s.buffer
    let c : PcmChunk := ⟨drained.1, s.nextSeq⟩
    let out := flushChunkForTranslation env cfg c
    ⟨drained.2, s.nextSeq + 1, s.queue ++ out.enqueued.toList⟩

/-- A run of the session: before each tick the bytes that arrived since the
previous tick are appended, then the tick fires. -/
def runTicks (env : Env) (cfg : PluginConfig) : List Bytes → RunState → RunState
  | [], s => s
  | incoming :: rest, s =>
      runTicks env cfg rest
        (flushTick env cfg ⟨appendPcm s.buffer incoming, s.nextSeq, s.queue⟩)

/-- The chunk trace of the flush scheduler over a run of ticks: each tick whose
drain is non-empty yields a chunk tagged with the next ghost sequence number;
empty drains are skipped. -/
def scheduledChunks (seq : Nat) : List Bytes → List PcmChunk
  | [] => []
  | b :: rest =>
      if b = [] then scheduledChunks seq rest
      else ⟨b, seq⟩ :: scheduledChunks (seq + 1) rest

/-- The framing loop of `sendTtsPcmToJanus` (lines 478-502): full frames of
`frameSizeSamples` samples are copied out one by one; a non-empty remainder
shorter than a frame is zero-padded to the full frame size.  Each emitted
frame is built as a fresh list (the code copies into a new `Int16Array`). -/
def ttsFrames (frameSizeSamples : Nat) (rawPcm : Pcm) : List Pcm :=
  if h : 0 < frameSizeSamples ∧ frameSizeSamples ≤ rawPcm.length then
    rawPcm.take frameSizeSamples ::
      ttsFrames frameSizeSamples (rawPcm.drop frameSizeSamples)
  else if rawPcm.length = 0 then []
  else [rawPcm ++ List.replicate (frameSizeSamples - rawPcm.length) 0]
termination_by rawPcm.length
decreasing_by
  simp only [List.length_drop]
  omega

/-- Observable outcome of one `sendTtsPcmToJanus` call: the frames pushed to
`janus.pushLocalAudio`, the number of 10 ms pacing delays performed, and
whether the no-Janus warning was logged. -/
structure PacerOut where
  frames : List Pcm
  delays : Nat
  warned : Bool

/-- `sendTtsPcmToJanus` (lines 471-503): with no Janus client it warns and
returns immediately; otherwise the frame size is
`Math.floor(sampleRate * 0.01) * channels` (exact-arithmetic `sampleRate / 100
* channels`) and every pushed frame, the padded remainder included, is
followed by one 10 ms delay. -/
def sendTtsPcmToJanus (hasJanus : Bool) (sampleRate channels : Nat) (rawPcm : Pcm) :
    PacerOut :=
  if !hasJanus then ⟨[], 0, true⟩
  else
    let frameSizeSamples := sampleRate / 100 * channels
    ⟨ttsFrames frameSizeSamples rawPcm,
      (ttsFrames frameSizeSamples rawPcm).length, false⟩

/-- State of the TTS queue consumer: the queue contents, the `ttsProcessing`
in-progress flag, and the number of consumer-loop iterations currently
awaiting `sendTtsPcmToJanus` (the dispatches in flight). -/
structure QueueState where
  ttsQueue : List Pcm
  ttsProcessing : Bool
  dispatching : Nat

/-- Atomic steps of the queue subsystem (`processTtsQueue`, lines 454-465, and
its call sites at lines 405-406), at the granularity of the JS event loop:
each step is a synchronous block between suspension points.
`enqueueBusy`/`enqueueStart` model `ttsQueue.push` followed by the
`processTtsQueue()` call: if the flag is set the call returns at once,
otherwise the flag is set and the loop shifts the head and starts dispatching
it.  `sendDoneNext`/`sendDoneExit` model a dispatch completing: the loop either
shifts the next entry and dispatches it, or finds the queue empty, clears the
flag and returns. -/
inductive QStep : QueueState → QueueState → Prop
  | enqueueBusy (s : QueueState) (a : Pcm) (h : s.ttsProcessing = true) :
      QStep s ⟨s.ttsQueue ++ [a], s.ttsProcessing, s.dispatching⟩
  | enqueueStart (s : QueueState) (a : Pcm) (h : s.ttsProcessing = false) :
      QStep s ⟨(s.ttsQueue ++ [a]).tail, true, s.dispatching + 1⟩
  | sendDoneNext (s : QueueState) (h : 0 < s.dispatching) (hq : s.ttsQueue ≠ []) :
      QStep s ⟨s.ttsQueue.tail, s.ttsProcessing, s.dispatching⟩
  | sendDoneExit (s : QueueState) (h : 0 < s.dispatching) (hq : s.ttsQueue = []) :
      QStep s ⟨s.ttsQueue, false, s.dispatching - 1⟩

/-- Initial queue state of a session: empty queue, flag clear, nothing in
flight. -/
def QInit : QueueState := ⟨[], false, 0⟩

/-- States of the queue subsystem reachable in a running session. -/
def QReachable (s : QueueState) : Prop := Relation.ReflTransGen QStep QInit s

/-- The recognition capability fails on every call: the credential is missing,
or every fetch completes with a non-ok response. -/
def sttAlwaysFails (env : Env) : Prop :=
  env.openaiKey = none ∨ ∀ w lang, ∃ b, env.sttFetch w lang = Except.ok ⟨false, b⟩

/-- The translation capability fails on every call: every fetch completes with
a non-ok response. -/
def translateAlwaysFails (env : Env) : Prop :=
  ∀ u b, ∃ t, env.translateFetch u b = Except.ok ⟨false, t⟩

/-- The synthesis capability fails on every call: the credential is missing,
or every fetch completes with a non-ok response. -/
def ttsAlwaysFails (env : Env) : Prop :=
  env.elevenKey = none ∨ ∀ t v, ∃ m, env.ttsFetch t v = Except.ok ⟨false, m⟩

/-- Modelled from the spec: the sample count a 500 ms fallback tone would have
if it were sampled at the configured output sample rate, as the claim about
`syntheticBeepPcm` states.  Used only to compare the claim with the code. -/
def beepSpecSamples (sampleRate : Nat) : Nat := sampleRate * 500 / 1000

/-- A concrete environment in which every capability is unavailable or fails
with an error response, and both ffmpeg conversions succeed. -/
def envAllFail : Env :=
  ⟨none, none, "",
    fun _ _ => Except.ok ⟨false, ""⟩,
    fun _ _ => Except.ok ⟨false, ""⟩,
    fun _ _ => Except.ok ⟨false, []⟩,
    fun b => Except.ok b,
    fun _ _ => Except.ok [],
    fun _ => 0⟩

/-- Like `envAllFail` but the PCM-to-WAV ffmpeg conversion rejects. -/
def envWavFail : Env :=
  ⟨none, none, "",
    fun _ _ => Except.ok ⟨false, ""⟩,
    fun _ _ => Except.ok ⟨false, ""⟩,
    fun _ _ => Except.ok ⟨false, []⟩,
    fun _ => Except.error (),
    fun _ _ => Except.ok [],
    fun _ => 0⟩

/-- The default plugin configuration (constructor defaults, lines 279-292). -/
def cfg0 : PluginConfig :=
  ⟨48000, 1, "en", "en", "21m00Tcm4TlvDq8ikWAM", "http://localhost:5000/translate", none⟩

theorem openAiStt_alwaysFails (env : Env) (h : sttAlwaysFails env)
    (w : Bytes) (lang : String) : openAiStt env w lang = Except.ok "" := by
  unfold openAiStt
  rcases hk : env.openaiKey with _ | k
  · rfl
  · rcases h with h | h
    · rw [hk] at h
      cases h
    · obtain ⟨b, hb⟩ := h w lang
      rw [hb]
      rfl

theorem elevenLabsTts_alwaysFails (env : Env) (h : ttsAlwaysFails env)
    (text voiceId : String) :
    elevenLabsTts env text voiceId = Except.ok (syntheticBeepPcm env) := by
  unfold elevenLabsTts
  rcases hk : env.elevenKey with _ | k
  · rfl
  · rcases h with h | h
    · rw [hk] at h
      cases h
    · obtain ⟨m, hm⟩ := h text voiceId
      rw [hm]
      rfl

theorem ttsFrames_nil (F : Nat) : ttsFrames F [] = [] := by
  rw [ttsFrames]
  have hcond : ¬(0 < F ∧ F ≤ ([] : Pcm).length) := by
    rintro ⟨h1, h2⟩
    simp at h2
    omega
  rw [dif_neg hcond]
  simp

theorem ttsFrames_full (F : Nat) (pcm : Pcm) (h1 : 0 < F) (h2 : F ≤ pcm.length) :
    ttsFrames F pcm = pcm.take F :: ttsFrames F (pcm.drop F) := by
  rw [ttsFrames, dif_pos ⟨h1, h2⟩]

theorem ttsFrames_small (F : Nat) (pcm : Pcm) (h1 : pcm.length < F) (h2 : pcm ≠ []) :
    ttsFrames F pcm = [pcm ++ List.replicate (F - pcm.length) 0] := by
  have hcond : ¬(0 < F ∧ F ≤ pcm.length) := by
    rintro ⟨ha, hb⟩
    omega
  have hlen : pcm.length ≠ 0 := by
    simpa using h2
  rw [ttsFrames, dif_neg hcond, if_neg hlen]

theorem ttsFrames_length (F : Nat) (hF : 0 < F) (pcm : Pcm) :
    (ttsFrames F pcm).length = (pcm.length + F - 1) / F := by
  by_cases h2 : F ≤ pcm.length
  · have ih := ttsFrames_length F hF (pcm.drop F)
    rw [ttsFrames_full F pcm hF h2, List.length_cons, ih, List.length_drop]
    have e1 : pcm.length - F + F - 1 = pcm.length - 1 := by omega
    have e2 : pcm.length + F - 1 = pcm.length - 1 + F := by omega
    rw [e1, e2, Nat.add_div_right _ hF]
  · rcases eq_or_ne pcm [] with h | h
    · subst h
      rw [ttsFrames_nil]
      have : F - 1 < F := by omega
      simp [Nat.div_eq_of_lt this]
    · have hpos : 0 < pcm.length := List.length_pos.mpr h
      rw [ttsFrames_small F pcm (by omega) h]
      have e2 : pcm.length + F - 1 = pcm.length - 1 + F := by omega
      rw [List.length_singleton, e2, Nat.add_div_right _ hF,
        Nat.div_eq_of_lt (by omega)]
termination_by pcm.length
decreasing_by
  simp only [List.length_drop]
  omega

theorem ttsFrames_mem_length (F : Nat) (hF : 0 < F) (pcm : Pcm) :
    ∀ fr ∈ ttsFrames F pcm, fr.length = F := by
  by_cases h2 : F ≤ pcm.length
  · rw [ttsFrames_full F pcm hF h2]
    intro fr hfr
    rcases List.mem_cons.mp hfr with h | h
    · subst h
      rw [List.length_take]
      omega
    · exact ttsFrames_mem_length F hF (pcm.drop F) fr h
  · rcases eq_or_ne pcm [] with h | h
    · subst h
      rw [ttsFrames_nil]
      intro fr hfr
      cases hfr
    · rw [ttsFrames_small F pcm (by omega) h]
      intro fr hfr
      have := List.mem_singleton.mp hfr
      subst this
      rw [List.length_append, List.length_replicate]
      omega
termination_by pcm.length
decreasing_by
  simp only [List.length_drop]
  omega

theorem flatten_length_of_const (F : Nat) :
    ∀ l : List Pcm, (∀ fr ∈ l, fr.length = F) → l.flatten.length = l.length * F := by
  intro l
  induction l with
  | nil => simp
  | cons a t ih =>
    intro h
    rw [List.flatten_cons, List.length_append, List.length_cons,
      ih (fun fr hf => h fr (List.mem_cons_of_mem a hf)),
      h a (List.mem_cons_self a t)]
    ring

theorem ttsFrames_flatten (F : Nat) (hF : 0 < F) (pcm : Pcm) :
    (ttsFrames F pcm).flatten =
      pcm ++ List.replicate ((ttsFrames F pcm).length * F - pcm.length) 0 := by
  by_cases h2 : F ≤ pcm.length
  · have ih := ttsFrames_flatten F hF (pcm.drop F)
    rw [ttsFrames_full F pcm hF h2, List.flatten_cons, ih, ← List.append_assoc,
      List.take_append_drop, List.length_cons]
    congr 2
    rw [List.length_drop, Nat.succ_mul]
    have hmem := ttsFrames_mem_length F hF (pcm.drop F)
    have hfl : (ttsFrames F (pcm.drop F)).flatten.length =
        (ttsFrames F (pcm.drop F)).length * F :=
      flatten_length_of_const F _ hmem
    have hfl2 : (ttsFrames F (pcm.drop F)).flatten.length =
        (pcm.drop F).length +
          ((ttsFrames F (pcm.drop F)).length * F - (pcm.drop F).length) := by
      rw [ih, List.length_append, List.length_replicate]
    rw [List.length_drop] at hfl2
    omega
  · rcases eq_or_ne pcm [] with h | h
    · subst h
      rw [ttsFrames_nil]
      simp
    · rw [ttsFrames_small F pcm (by omega) h]
      simp [one_mul]
termination_by pcm.length
decreasing_by
  simp only [List.length_drop]
  omega

theorem QStep_preserves_inv {s t : QueueState}
    (hs : (s.ttsProcessing = false → s.dispatching = 0) ∧ s.dispatching ≤ 1)
    (h : QStep s t) :
    (t.ttsProcessing = false → t.dispatching = 0) ∧ t.dispatching ≤ 1 := by
  cases h with
  | enqueueBusy a hp =>
    exact hs
  | enqueueStart a hp =>
    refine ⟨?_, ?_⟩
    · intro hfalse
      simp at hfalse
    · have h0 := hs.1 hp
      simp only []
      omega
  | sendDoneNext hd hq =>
    exact hs
  | sendDoneExit hd hq =>
    refine ⟨?_, ?_⟩
    · intro _
      have := hs.2
      simp only []
      omega
    · have := hs.2
      simp only []
      omega

theorem foldl_appendPcm (chunks : List Bytes) :
    ∀ acc : Bytes, chunks.foldl appendPcm acc = acc ++ chunks.flatten := by
  induction chunks with
  | nil =>
    intro acc
    simp
  | cons c t ih =>
    intro acc
    rw [List.foldl_cons, ih, List.flatten_cons, appendPcm, List.append_assoc]

theorem scheduledChunks_map_seq (ticks : List Bytes) :
    ∀ seq : Nat, (scheduledChunks seq ticks).map PcmChunk.seq =
      List.range' seq (ticks.countP (fun b => !List.isEmpty b)) := by
  induction ticks with
  | nil =>
    intro seq
    simp [scheduledChunks]
  | cons b t ih =>
    intro seq
    by_cases hb : b = []
    · subst hb
      simp [scheduledChunks, List.countP_cons, ih]
    · have hne : (!List.isEmpty b) = true := by
        simp [List.isEmpty_iff, hb]
      rw [scheduledChunks, if_neg hb, List.map_cons, ih (seq + 1),
        List.countP_cons]
      simp [hne, List.range'_succ]

theorem runTicks_nextSeq (env : Env) (cfg : PluginConfig) (ticks : List Bytes) :
    ∀ (n : Nat) (q : List SynthesizedAudio),
      (runTicks env cfg ticks ⟨[], n, q⟩).nextSeq =
        n + ticks.countP (fun b => !List.isEmpty b) := by
  induction ticks with
  | nil =>
    intro n q
    simp [runTicks]
  | cons b t ih =>
    intro n q
    by_cases hb : b = []
    · subst hb
      rw [runTicks]
      have hstate : flushTick env cfg ⟨appendPcm [] [], n, q⟩ = ⟨[], n, q⟩ := rfl
      rw [hstate, ih n q, List.countP_cons]
      simp
    · rw [runTicks]
      have hne : appendPcm [] b = b := by
        simp [appendPcm]
      have hstate : flushTick env cfg ⟨appendPcm [] b, n, q⟩ =
          ⟨[], n + 1, q ++ (flushChunkForTranslation env cfg ⟨b, n⟩).enqueued.toList⟩ := by
        rw [hne]
        unfold flushTick
        rw [if_neg hb]
        rfl
      rw [hstate, ih (n + 1) _, List.countP_cons]
      have hne2 : (!List.isEmpty b) = true := by
        simp [List.isEmpty_iff, hb]
      simp [hne2]
      omega

theorem flushChunk_dichotomy (env : Env) (cfg : PluginConfig) (c : PcmChunk) :
    (∃ pcm : Pcm, flushChunkForTranslation env cfg c = ⟨some ⟨pcm, c.seq⟩, false⟩) ∨
    flushChunkForTranslation env cfg c = ⟨none, true⟩ := by
  unfold flushChunkForTranslation
  rcases hw : env.pcmToWav c.bytes with e | wav
  · right
    simp only [hw]
  · simp only [hw]
    rcases hr : openAiStt env wav cfg.sttLanguage with e | rec
    · right
      simp only [hr]
    · simp only [hr]
      rcases ht : (libreTranslate env rec cfg.targetLanguage cfg.translateUrl
          cfg.translateApiKey).result with e | tr
      · right
        simp only [ht]
      · simp only [ht]
        rcases he : elevenLabsTts env tr cfg.ttsVoiceId with e | pcm
        · right
          simp only [he]
        · left
          refine ⟨pcm, ?_⟩
          simp only [he]

theorem libreTranslate_nonempty (env : Env) (text targetLang url : String)
    (key : Option String) (ht : text ≠ "") :
    (libreTranslate env text targetLang url key).warned =
      (!strContains url "localhost" && (effectiveTranslateKey env key == "")) ∧
    (libreTranslate env text targetLang url key).fetchCount = 1 := by
  unfold libreTranslate
  rw [if_neg ht]
  dsimp only
  constructor
  · split
    · rfl
    · split
      · rfl
      · rfl
  · split
    · rfl
    · split
      · rfl
      · rfl

/-- Claim C1: for every chunk drained by the flush scheduler, even when the
Recognize, Translate and Synthesize capabilities all fail (missing credential
or completed error response), the pipeline still produces a SynthesizedAudio
— the fallback tone — and enqueues it to the playback queue; the tick
completes normally, so the failure aborts neither the chunk nor the session.
(An outright rejected fetch is the thrown-exception path of the C10 theorem.) -/
theorem flushFallbackOnAllStageFailure (env : Env) (cfg : PluginConfig)
    (b : Bytes) (n : Nat) (q : List SynthesizedAudio) (hb : b ≠ [])
    (hwav : ∃ w, env.pcmToWav b = Except.ok w)
    (hstt : sttAlwaysFails env) (_htr : translateAlwaysFails env)
    (htts : ttsAlwaysFails env) :
    flushTick env cfg ⟨b, n, q⟩ =
      ⟨[], n + 1, q ++ [⟨syntheticBeepPcm env, n⟩]⟩ := by
  obtain ⟨w, hw⟩ := hwav
  have hflush : flushChunkForTranslation env cfg ⟨b, n⟩ =
      ⟨some ⟨syntheticBeepPcm env, n⟩, false⟩ := by
    unfold flushChunkForTranslation
    dsimp only
    simp only [hw, openAiStt_alwaysFails env hstt,
      elevenLabsTts_alwaysFails env htts]
    rfl
  unfold flushTick
  rw [if_neg hb]
  show (⟨[], n + 1,
    q ++ (flushChunkForTranslation env cfg ⟨b, n⟩).enqueued.toList⟩ : RunState) = _
  rw [hflush]
  rfl

/-- Witness for C1: with the concrete all-failing environment and default
configuration, the one-byte chunk yields the beep at the tail of the queue. -/
theorem flushFallbackOnAllStageFailure_witness :
    flushTick envAllFail cfg0 ⟨[1], 0, []⟩ =
      ⟨[], 1, [⟨syntheticBeepPcm envAllFail, 0⟩]⟩ := by
  have h := flushFallbackOnAllStageFailure envAllFail cfg0 [1] 0 []
    (by decide) ⟨[1], rfl⟩ (Or.inl rfl) (fun u b => ⟨"", rfl⟩) (Or.inl rfl)
  exact h

/-- Claim C2: in every reachable state of the playback queue subsystem, at
most one consumer loop executes at a time (the `ttsProcessing` flag guards
entry), so at most one SynthesizedAudio is being dispatched to the frame
pacer at any instant — no two entries are ever played concurrently. -/
theorem processTtsQueueSingleConsumer (s : QueueState) (h : QReachable s) :
    s.dispatching ≤ 1 := by
  have inv : (s.ttsProcessing = false → s.dispatching = 0) ∧ s.dispatching ≤ 1 := by
    induction h with
    | refl => exact ⟨fun _ => rfl, Nat.zero_le 1⟩
    | tail hsteps hstep ih => exact QStep_preserves_inv ih hstep
  exact inv.2

/-- Witness for C2: the state reached by one enqueue that starts the consumer
is reachable and has a single dispatch in flight. -/
theorem processTtsQueueSingleConsumer_witness :
    QReachable ⟨[], true, 1⟩ ∧ QueueState.dispatching ⟨[], true, 1⟩ ≤ 1 := by
  have hstep : QStep QInit ⟨[], true, 1⟩ := QStep.enqueueStart QInit [] rfl
  have hreach : QReachable ⟨[], true, 1⟩ := Relation.ReflTransGen.single hstep
  exact ⟨hreach, processTtsQueueSingleConsumer _ hreach⟩

/-- Claim C3: with a sink attached, for an input of length L and frame size
F = sampleRate / 100 * channels (positive), the pacer emits exactly
ceil(L / F) frames, each exactly F samples long, the total emitted sample
count is frames * F (a multiple of F), and the concatenation of the emitted
frames is the input followed by zero padding — so the final partial frame is
zero-padded beyond L.  Frames are built by copying samples out of the input
into fresh lists, mirroring the fresh `Int16Array` per frame in the code. -/
theorem sendTtsPcmToJanusFraming (sampleRate channels : Nat) (rawPcm : Pcm)
    (hF : 0 < sampleRate / 100 * channels) :
    (sendTtsPcmToJanus true sampleRate channels rawPcm).frames.length =
      (rawPcm.length + sampleRate / 100 * channels - 1) /
        (sampleRate / 100 * channels) ∧
    (∀ fr ∈ (sendTtsPcmToJanus true sampleRate channels rawPcm).frames,
      fr.length = sampleRate / 100 * channels) ∧
    (sendTtsPcmToJanus true sampleRate channels rawPcm).frames.flatten.length =
      (sendTtsPcmToJanus true sampleRate channels rawPcm).frames.length *
        (sampleRate / 100 * channels) ∧
    (sendTtsPcmToJanus true sampleRate channels rawPcm).frames.flatten =
      rawPcm ++ List.replicate
        ((sendTtsPcmToJanus true sampleRate channels rawPcm).frames.length *
          (sampleRate / 100 * channels) - rawPcm.length) 0 := by
  have hframes : (sendTtsPcmToJanus true sampleRate channels rawPcm).frames =
      ttsFrames (sampleRate / 100 * channels) rawPcm := rfl
  rw [hframes]
  exact ⟨ttsFrames_length _ hF rawPcm, ttsFrames_mem_length _ hF rawPcm,
    flatten_length_of_const _ _ (ttsFrames_mem_length _ hF rawPcm),
    ttsFrames_flatten _ hF rawPcm⟩

/-- Witness for C3: at sample rate 200, one channel (frame size 2), the
3-sample input is emitted as ceil(3/2) = 2 frames whose concatenation is the
input plus one padding zero. -/
theorem sendTtsPcmToJanusFraming_witness :
    (sendTtsPcmToJanus true 200 1 [1, 2, 3]).frames.length = 2 ∧
    (sendTtsPcmToJanus true 200 1 [1, 2, 3]).frames.flatten = [1, 2, 3, 0] := by
  have h := sendTtsPcmToJanusFraming 200 1 [1, 2, 3] (by decide)
  obtain ⟨h1, h2, h3, h4⟩ := h
  constructor
  · exact h1.trans (by decide)
  · rw [h4, h1]
    decide

/-- Claim C4: for every sequence of appends followed by one drain, the
drained bytes are the concatenation of the appended bytes in call order; a
second drain with no intervening append returns empty (not an error); and a
scheduler tick with an empty buffer is a no-op for the rest of the pipeline. -/
theorem pcmBufferAppendDrain :
    (∀ chunks : List Bytes,
      (drainPcm (chunks.foldl appendPcm [])).1 = chunks.flatten) ∧
    (∀ chunks : List Bytes,
      (drainPcm (drainPcm (chunks.foldl appendPcm [])).2).1 = []) ∧
    (∀ (env : Env) (cfg : PluginConfig) (n : Nat) (q : List SynthesizedAudio),
      flushTick env cfg ⟨[], n, q⟩ = ⟨[], n, q⟩) := by
  refine ⟨?_, ?_, ?_⟩
  · intro chunks
    rw [drainPcm, foldl_appendPcm chunks []]
    rfl
  · intro chunks
    rfl
  · intro env cfg n q
    rfl

/-- Claim C5: every tick whose drain is non-empty is assigned the next
monotonically increasing sequence number starting at 0 (the chunk trace is
numbered 0, 1, 2, ... and the ghost counter after a run counts exactly the
non-empty drains), and the SynthesizedAudio produced for a chunk carries that
chunk's sequence number when submitted to the playback queue. -/
theorem flushSeqNumbering :
    (∀ ticks : List Bytes, (scheduledChunks 0 ticks).map PcmChunk.seq =
      List.range (ticks.countP (fun b => !List.isEmpty b))) ∧
    (∀ (env : Env) (cfg : PluginConfig) (ticks : List Bytes),
      (runTicks env cfg ticks ⟨[], 0, []⟩).nextSeq =
        ticks.countP (fun b => !List.isEmpty b)) ∧
    (∀ (env : Env) (cfg : PluginConfig) (c : PcmChunk) (sa : SynthesizedAudio),
      (flushChunkForTranslation env cfg c).enqueued = some sa → sa.seq = c.seq) := by
  refine ⟨?_, ?_, ?_⟩
  · intro ticks
    rw [List.range_eq_range' _]
    exact scheduledChunks_map_seq ticks 0
  · intro env cfg ticks
    simpa using runTicks_nextSeq env cfg ticks 0 []
  · intro env cfg c sa h
    rcases flushChunk_dichotomy env cfg c with ⟨pcm, heq⟩ | heq
    · rw [heq] at h
      simp only [FlushResult.enqueued] at h
      cases h
      rfl
    · rw [heq] at h
      simp at h

/-- Witness for C5: three ticks with an empty middle drain are numbered 0, 1;
the run counter ends at 2; and a concrete chunk with ghost number 5 yields an
enqueued SynthesizedAudio carrying 5. -/
theorem flushSeqNumbering_witness :
    (scheduledChunks 0 [[1], [], [2]]).map PcmChunk.seq = [0, 1] ∧
    (flushChunkForTranslation envAllFail cfg0 ⟨[1], 5⟩).enqueued =
      some ⟨syntheticBeepPcm envAllFail, 5⟩ ∧
    SynthesizedAudio.seq ⟨syntheticBeepPcm envAllFail, 5⟩ = 5 := by
  have h : (flushChunkForTranslation envAllFail cfg0 ⟨[1], 5⟩).enqueued =
      some ⟨syntheticBeepPcm envAllFail, 5⟩ := rfl
  refine ⟨?_, h, flushSeqNumbering.2.2 envAllFail cfg0 ⟨[1], 5⟩ _ h⟩
  rw [flushSeqNumbering.1 [[1], [], [2]]]
  decide

/-- Claim C6 fails as stated: the fallback tone is not sampled at the
configured output sample rate.  At configured sample rate 24000 a 500 ms tone
would have `beepSpecSamples 24000 = 12000` samples, but `syntheticBeepPcm`
takes no rate at all and always produces 24000 samples (500 ms at the
hard-coded 48000); the failing call returns exactly that tone. -/
theorem ttsFallbackRateCounterexample :
    elevenLabsTts envAllFail "hello" "v" = Except.ok (syntheticBeepPcm envAllFail) ∧
    (syntheticBeepPcm envAllFail).length = 24000 ∧
    beepSpecSamples 24000 = 12000 ∧
    (24000 : Nat) ≠ 12000 := by
  refine ⟨rfl, ?_, rfl, by decide⟩
  simp [syntheticBeepPcm]

/-- Claim C6 amended: whenever the synthesis capability is unavailable or its
call completes with a failure response, `elevenLabsTts` returns the
deterministic fallback tone: 500 ms of the 440 Hz fixed-amplitude sine,
sampled at the hard-coded 48000 Hz (24000 samples) regardless of the
configured sample rate. -/
theorem ttsFallbackBeepFixedRate (env : Env) (text voiceId : String)
    (h : ttsAlwaysFails env) :
    elevenLabsTts env text voiceId = Except.ok (syntheticBeepPcm env) ∧
    (syntheticBeepPcm env).length = 48000 * 500 / 1000 := by
  refine ⟨elevenLabsTts_alwaysFails env h text voiceId, ?_⟩
  simp [syntheticBeepPcm]

/-- Witness for the amended C6 at the concrete all-failing environment. -/
theorem ttsFallbackBeepFixedRate_witness :
    elevenLabsTts envAllFail "x" "v" = Except.ok (syntheticBeepPcm envAllFail) ∧
    (syntheticBeepPcm envAllFail).length = 48000 * 500 / 1000 :=
  ttsFallbackBeepFixedRate envAllFail "x" "v" (Or.inl rfl)

/-- Claim C7: Translate on empty input returns empty output with zero network
calls (and no warning); and whenever the call completes with a failure
response, the result is the original text unchanged — a translation failure
never drops the chunk. -/
theorem libreTranslateEmptyAndFailure :
    (∀ (env : Env) (targetLang url : String) (key : Option String),
      libreTranslate env "" targetLang url key = ⟨Except.ok "", false, 0⟩) ∧
    (∀ (env : Env) (text targetLang url : String) (key : Option String),
      (∀ u b r, env.translateFetch u b = Except.ok r → r.ok = false) →
      (∀ u b, env.translateFetch u b ≠ Except.error ()) →
      (libreTranslate env text targetLang url key).result = Except.ok text) := by
  constructor
  · intro env targetLang url key
    rfl
  · intro env text targetLang url key h1 h2
    by_cases ht : text = ""
    · subst ht
      rfl
    · unfold libreTranslate
      rw [if_neg ht]
      dsimp only
      split
      · rename_i e heq
        cases e
        exact absurd heq (h2 _ _)
      · rename_i r heq
        have hok := h1 _ _ r heq
        rw [hok]
        rfl

/-- Witness for C7: the always-failing environment passes "bonjour" through
unchanged, and the empty input short-circuits. -/
theorem libreTranslateEmptyAndFailure_witness :
    libreTranslate envAllFail "" "en" "u" none = ⟨Except.ok "", false, 0⟩ ∧
    (libreTranslate envAllFail "bonjour" "en" "u" none).result =
      Except.ok "bonjour" := by
  refine ⟨libreTranslateEmptyAndFailure.1 envAllFail "en" "u" none, ?_⟩
  exact libreTranslateEmptyAndFailure.2 envAllFail "bonjour" "en" "u" none
    (fun u b r h => by
      have h2 : Except.ok (⟨false, ""⟩ : FetchResp) = Except.ok r := h
      injection h2 with h3
      rw [← h3])
    (fun u b h => by
      have h2 : Except.ok (⟨false, ""⟩ : FetchResp) = Except.error () := h
      exact Except.noConfusion h2)

/-- Claim C8 fails as stated: with no sink attached the pacer performs no
pacing delay at all.  For the 2-sample input at frame size 1 the claim would
have ceil(2/1) = 2 per-frame delays elapse, but the call returns immediately
with 0 delays and no frame pushed. -/
theorem sendTtsNoJanusCounterexample :
    (sendTtsPcmToJanus false 100 1 [3, 4]).delays = 0 ∧
    (ttsFrames (100 / 100 * 1) [3, 4]).length = 2 ∧
    (0 : Nat) ≠ 2 := by
  refine ⟨rfl, ?_, by decide⟩
  rw [show (100 / 100 * 1 : Nat) = 1 from rfl]
  rw [ttsFrames_full 1 [3, 4] (by decide) (by decide)]
  rw [show ([3, 4] : Pcm).drop 1 = [4] from rfl]
  rw [ttsFrames_full 1 [4] (by decide) (by decide)]
  rw [show ([4] : Pcm).drop 1 = [] from rfl]
  rw [ttsFrames_nil]
  rfl

/-- Claim C8 amended: when no sink is attached at dispatch time, the warning
is surfaced and the whole SynthesizedAudio is dropped at once: the pacer
returns immediately, pushing no frame and performing no pacing delay. -/
theorem sendTtsNoJanusEarlyReturn (sampleRate channels : Nat) (rawPcm : Pcm) :
    sendTtsPcmToJanus false sampleRate channels rawPcm = ⟨[], 0, true⟩ := rfl

/-- Claim C9 fails as stated: a translation call with empty input returns
before the warning check, so a non-localhost endpoint with no credential
configured (neither in config nor environment) produces no warning — and no
network call proceeds either. -/
theorem libreTranslateWarningCounterexample :
    strContains "https://libretranslate.com/translate" "localhost" = false ∧
    effectiveTranslateKey envAllFail none = "" ∧
    (libreTranslate envAllFail "" "en"
      "https://libretranslate.com/translate" none).warned = false ∧
    (libreTranslate envAllFail "" "en"
      "https://libretranslate.com/translate" none).fetchCount = 0 := by
  refine ⟨by decide, rfl, rfl, rfl⟩

/-- Claim C9 amended: for every translation call with non-empty input, the
non-fatal warning is emitted exactly when the endpoint URL does not contain
"localhost" and the effective credential (config key or-else environment
variable) is empty; and the network call proceeds (exactly one fetch) in
every such call, warned or not. -/
theorem libreTranslateWarning (env : Env) (text targetLang url : String)
    (key : Option String) (ht : text ≠ "") :
    ((libreTranslate env text targetLang url key).warned = true ↔
      (strContains url "localhost" = false ∧
        effectiveTranslateKey env key = "")) ∧
    (libreTranslate env text targetLang url key).fetchCount = 1 := by
  have h := libreTranslate_nonempty env text targetLang url key ht
  refine ⟨?_, h.2⟩
  rw [h.1]
  simp [Bool.and_eq_true, Bool.not_eq_true', beq_iff_eq]

/-- Witness for the amended C9: a localhost endpoint with non-empty input
warns exactly when its warning condition holds (here it does not), and one
fetch proceeds. -/
theorem libreTranslateWarning_witness :
    ((libreTranslate envAllFail "bonjour" "en"
      "http://localhost:5000/translate" none).warned = true ↔
      (strContains "http://localhost:5000/translate" "localhost" = false ∧
        effectiveTranslateKey envAllFail none = "")) ∧
    (libreTranslate envAllFail "bonjour" "en"
      "http://localhost:5000/translate" none).fetchCount = 1 :=
  libreTranslateWarning envAllFail "bonjour" "en"
    "http://localhost:5000/translate" none (by decide)

/-- Claim C10: if any stage of a chunk's pipeline run throws (the `catch`
branch runs, logging the error), no SynthesizedAudio is enqueued for that
chunk and the drained bytes are not restored: the tick ends with an empty
buffer and an unchanged queue, so that chunk's audio is permanently discarded
while the buffer continues accumulating new audio. -/
theorem flushErrorDiscardsChunk (env : Env) (cfg : PluginConfig) (b : Bytes)
    (n : Nat) (q : List SynthesizedAudio) (hb : b ≠ [])
    (hthrow : (flushChunkForTranslation env cfg ⟨b, n⟩).errorLogged = true) :
    (flushChunkForTranslation env cfg ⟨b, n⟩).enqueued = none ∧
    flushTick env cfg ⟨b, n, q⟩ = ⟨[], n + 1, q⟩ := by
  have hnone : (flushChunkForTranslation env cfg ⟨b, n⟩).enqueued = none := by
    rcases flushChunk_dichotomy env cfg ⟨b, n⟩ with ⟨pcm, heq⟩ | heq
    · rw [heq] at hthrow
      simp at hthrow
    · rw [heq]
  refine ⟨hnone, ?_⟩
  unfold flushTick
  rw [if_neg hb]
  show (⟨[], n + 1,
    q ++ (flushChunkForTranslation env cfg ⟨b, n⟩).enqueued.toList⟩ : RunState) = _
  rw [hnone]
  simp

/-- Witness for C10: with the WAV conversion rejecting, the one-byte chunk is
discarded — nothing enqueued, buffer left empty, queue unchanged. -/
theorem flushErrorDiscardsChunk_witness :
    (flushChunkForTranslation envWavFail cfg0 ⟨[1], 0⟩).enqueued = none ∧
    flushTick envWavFail cfg0 ⟨[1], 0, []⟩ = ⟨[], 1, []⟩ := by
  exact flushErrorDiscardsChunk envWavFail cfg0 [1] 0 [] (by decide) rfl
